import Mathlib

/-!
Shallow embedding of rpc4django/rpcdispatcher.py.

The module defines a decorator helper (rpcmethod), a method descriptor
(RPCMethod), and a registry/coordinator (RPCDispatcher).  Pure structure and
control flow are translated directly; Python attribute presence
(hasattr) is modelled with Option, Python exceptions with Except, and the
heterogeneous Python values produced by system.describe with the PyVal
inductive.  The stdlib parsers (xmlrpclib.loads, json.loads) live outside
this repository; their possible outcomes on a raw request body are modelled
abstractly by the XmlParse and JsonParse types below.
-/

/-- Error code from xmlrpc-epi used for application-level faults
(rpcdispatcher.py line 19). -/
def APPLICATION_ERROR : Int := -32500

/-- An xmlrpclib.Fault: a numeric code plus a message string. -/
structure Fault where
  faultCode : Int
  faultString : String
deriving Repr, DecidableEq

/--
A Python callable as seen by RPCMethod.__init__ through reflection:

* func_name           -- method.func_name (the intrinsic identifier);
* argspec             -- inspect.getargspec(method)[0], the declared formal
                         parameter names in order;
* docstring           -- pydoc.getdoc(method);
* external_name       -- the "external_name" attribute when present
                         (set by the rpcmethod decorator), else none;
* attached_signature  -- the "signature" attribute when present
                         (set by the rpcmethod decorator), else none;
* permission          -- getattr(method, "permission", None).
-/
structure Callable where
  func_name : String
  argspec : List String
  docstring : String
  external_name : Option String
  attached_signature : Option (List String)
  permission : Option String
deriving Repr, DecidableEq

/-- The rpcmethod decorator (rpcdispatcher.py lines 21-65): attaches
is_rpcmethod, an empty default signature, permission, and external_name
(defaulting to the intrinsic name) to a callable.  kwargs "name",
"signature" and "permission" override the defaults. -/
def rpcmethod (kw_name : Option String) (kw_signature : Option (List String))
    (kw_permission : Option String) (method : Callable) : Callable :=
  { method with
    external_name :=
      match kw_name with
      | some n => some n
      | none => some method.func_name,
    attached_signature :=
      match kw_signature with
      | some s => some s
      | none => some [],
    permission := kw_permission }

/-- The state of an RPCMethod instance after __init__
(rpcdispatcher.py lines 87-128). -/
structure RPCMethod where
  method : Callable
  help : String
  signature : List String
  name : String
  permission : Option String
  args : List String
deriving Repr, DecidableEq

/-- Name resolution in RPCMethod.__init__ (lines 96-103):
if hasattr(method, "external_name") use it; elif name is not None use the
passed name; else use method.func_name. -/
def resolve_name (method : Callable) (name : Option String) : String :=
  match method.external_name with
  | some e => e
  | none =>
    match name with
    | some n => n
    | none => method.func_name

/-- Help resolution in RPCMethod.__init__ (lines 105-109): the passed
docstring when not None, else pydoc.getdoc(method). -/
def resolve_help (method : Callable) (docstring : Option String) : String :=
  match docstring with
  | some d => d
  | none => method.docstring

/-- Argument resolution in RPCMethod.__init__ (lines 114-116):
args = [arg for arg in args if arg != "self"] over the reflected
formal-parameter list. -/
def resolve_args (method : Callable) : List String :=
  method.argspec.filter (fun a => a ≠ "self")

/-- The default signature built at lines 117-118: one "object" tag per
resolved argument, with an extra "object" inserted at index 0. -/
def default_signature (args : List String) : List String :=
  "object" :: args.map (fun _ => "object")

/-- Signature resolution in RPCMethod.__init__ (lines 117-128): start from
the all-"object" default; if the callable has an attached signature of
length len(args)+1 use it; elif a signature was passed and
len(args)+1 == len(signature) use it. -/
def resolve_signature (method : Callable) (signature : Option (List String))
    (args : List String) : List String :=
  match method.attached_signature with
  | some s =>
    if s.length = args.length + 1 then s
    else
      match signature with
      | some s2 => if args.length + 1 = s2.length then s2 else default_signature args
      | none => default_signature args
  | none =>
    match signature with
    | some s2 => if args.length + 1 = s2.length then s2 else default_signature args
    | none => default_signature args

/-- RPCMethod.__init__ (rpcdispatcher.py lines 87-128). -/
def RPCMethod.make (method : Callable) (name : Option String)
    (signature : Option (List String)) (docstring : Option String) : RPCMethod :=
  { method := method
    help := resolve_help method docstring
    signature := resolve_signature method signature (resolve_args method)
    name := resolve_name method name
    permission := method.permission
    args := resolve_args method }

/-- RPCMethod.get_returnvalue (lines 152-158): signature[0] when the
signature is nonempty, else None. -/
def RPCMethod.get_returnvalue (m : RPCMethod) : Option String :=
  match m.signature with
  | [] => none
  | s :: _ => some s

/-- RPCMethod.get_params (lines 160-180).  A pair (n, t) stands for the
Python dict with "name" n and "rpctype" t.  When the signature is nonempty
and of length len(args)+1 it pairs args[argnum] with signature[argnum+1];
when nonempty of any other length it pairs every argument with "object";
when empty it returns []. -/
def RPCMethod.get_params (m : RPCMethod) : List (String × String) :=
  if m.signature.length > 0 then
    if m.signature.length = m.args.length + 1 then
      (List.range m.args.length).map
        (fun argnum => (m.args.getD argnum "", m.signature.getD (argnum + 1) ""))
    else
      (List.range m.args.length).map (fun argnum => (m.args.getD argnum "", "object"))
  else []

/-- A heterogeneous Python value, as produced by system.describe and by
json.loads: strings, integers, booleans, None, tuples, lists and
string-keyed dicts (a dict is modelled as its association list in
insertion order). -/
inductive PyVal where
  | str (s : String)
  | int (n : Int)
  | bool (b : Bool)
  | pynone
  | tup (vs : List PyVal)
  | list (vs : List PyVal)
  | dict (kvs : List (String × PyVal))
deriving Repr

/-- The registry state of an RPCDispatcher: the configured url and the
ordered list of registered RPCMethod objects (rpcdispatcher.py lines
208-213; the two protocol sub-dispatchers live in modules outside this
file and carry no state the introspection methods read). -/
structure RPCDispatcher where
  url : String
  rpcmethods : List RPCMethod
deriving Repr

/-- RPCDispatcher.system_listmethods (lines 240-248): the names of the
registered methods, sorted with Python list.sort, i.e. lexicographic
string order. -/
def RPCDispatcher.system_listmethods (d : RPCDispatcher) : List String :=
  (d.rpcmethods.map RPCMethod.name).mergeSort (fun a b => a ≤ b)

/-- The loop of RPCDispatcher.system_methodhelp (lines 250-264): return the
help of the first registered method with the requested name, else raise
Fault(APPLICATION_ERROR, "No method found with name: " + name). -/
def helpLoop : List RPCMethod → String → Except Fault String
  | [], method_name =>
    Except.error ⟨APPLICATION_ERROR, "No method found with name: " ++ method_name⟩
  | m :: rest, method_name =>
    if m.name = method_name then Except.ok m.help else helpLoop rest method_name

/-- RPCDispatcher.system_methodhelp (lines 250-264). -/
def RPCDispatcher.system_methodhelp (d : RPCDispatcher) (method_name : String) :
    Except Fault String :=
  helpLoop d.rpcmethods method_name

/-- The loop of RPCDispatcher.system_methodsignature (lines 266-276). -/
def signatureLoop : List RPCMethod → String → Except Fault (List String)
  | [], method_name =>
    Except.error ⟨APPLICATION_ERROR, "No method found with name: " ++ method_name⟩
  | m :: rest, method_name =>
    if m.name = method_name then Except.ok m.signature else signatureLoop rest method_name

/-- RPCDispatcher.system_methodsignature (lines 266-276). -/
def RPCDispatcher.system_methodsignature (d : RPCDispatcher) (method_name : String) :
    Except Fault (List String) :=
  signatureLoop d.rpcmethods method_name

/-- The per-method dict built inside system_describe (lines 232-236). -/
def describeMethodEntry (m : RPCMethod) : PyVal :=
  PyVal.dict
    [ ("name", PyVal.str m.name),
      ("summary", PyVal.str m.help),
      ("params", PyVal.list (m.get_params.map
        (fun p => PyVal.dict [("name", PyVal.str p.1), ("rpctype", PyVal.str p.2)]))),
      ("return",
        match m.get_returnvalue with
        | some s => PyVal.str s
        | none => PyVal.pynone) ]

/-- RPCDispatcher.system_describe (lines 223-238).  Note the source line
231 reads

  description["serviceURL"] = self.url,

whose trailing comma makes the stored value the one-element tuple
(self.url,) rather than the string self.url; the embedding reproduces
that. -/
def RPCDispatcher.system_describe (d : RPCDispatcher) : List (String × PyVal) :=
  [ ("serviceType", PyVal.str "RPC4Django JSONRPC+XMLRPC"),
    ("serviceURL", PyVal.tup [PyVal.str d.url]),
    ("methods", PyVal.list (d.rpcmethods.map describeMethodEntry)) ]

/-- RPCDispatcher.register_method (lines 350-377): build the RPCMethod and
append it (and register it with the two protocol sub-dispatchers, which
hold no observable state here) only when its resolved name is not already
in system_listmethods(). -/
def RPCDispatcher.register_method (d : RPCDispatcher) (method : Callable)
    (name : Option String) (signature : Option (List String))
    (helpmsg : Option String) : RPCDispatcher :=
  let meth := RPCMethod.make method name signature helpmsg
  if meth.name ∈ d.system_listmethods then d
  else { d with rpcmethods := d.rpcmethods ++ [meth] }

/-- Outcome of xmlrpclib.loads on a raw request body (the parser is Python
stdlib code, outside this repository): it returns a (params, methodname)
pair on success, raises xmlrpclib.Fault when the body is a well-formed
fault response, and raises some other exception (e.g.
xml.parsers.expat.ExpatError) on malformed XML. -/
inductive XmlParse where
  | ok (params : List PyVal) (methodName : String)
  | fault (f : Fault)
  | otherExn
deriving Repr

/-- Outcome of json.loads on a raw request body (Python stdlib): the parsed
value, or a ValueError on malformed JSON. -/
inductive JsonParse where
  | ok (v : PyVal)
  | valueError
deriving Repr

/-- A raw POST body, abstracted by what each stdlib parser would do with
it. -/
structure RawPostData where
  xmlParse : XmlParse
  jsonParse : JsonParse

/-- A Python exception escaping get_method_name to its caller. -/
inductive PyExn where
  | exn
deriving Repr, DecidableEq

/-- The request_format == "xml" branch of RPCDispatcher.get_method_name
(lines 324-331): return the parsed method name; "except Fault: return
None"; any other exception raised by xmlrpclib.loads propagates. -/
def get_method_name_xml : XmlParse → Except PyExn (Option String)
  | XmlParse.ok _ m => Except.ok (some m)
  | XmlParse.fault _ => Except.ok none
  | XmlParse.otherExn => Except.error PyExn.exn

/-- The non-xml branch of RPCDispatcher.get_method_name (lines 332-341):
json-decode the body; if the result is not a dict or has no "method" key
return None, else return jsondict["method"]; "except ValueError: return
None". -/
def get_method_name_json : JsonParse → Except PyExn (Option PyVal)
  | JsonParse.ok v =>
    match v with
    | PyVal.dict kvs =>
      match kvs.lookup "method" with
      | some mv => Except.ok (some mv)
      | none => Except.ok none
    | _ => Except.ok none
  | JsonParse.valueError => Except.ok none

/-! Concrete callables and dispatcher states used by witnesses and
counterexamples. -/

/-- A decorated callable: the rpcmethod decorator attached the external
name "meta" (different from its intrinsic name "realfn"). -/
def cMeta : Callable :=
  { func_name := "realfn", argspec := ["a"], docstring := "meta doc",
    external_name := some "meta", attached_signature := some [], permission := none }

/-- An undecorated callable with two parameters. -/
def cPlain : Callable :=
  { func_name := "plainfn", argspec := ["x", "y"], docstring := "plain doc",
    external_name := none, attached_signature := none, permission := none }

/-- A second undecorated callable whose intrinsic name collides with
cPlain. -/
def cPlain2 : Callable :=
  { func_name := "plainfn", argspec := ["z"], docstring := "other doc",
    external_name := none, attached_signature := none, permission := none }

/-- Claim C1, counterexample: cMeta carries the attached metadata name
"meta" and is registered with the explicit override "override", yet the
descriptor resolves to "meta", not to the override, because
RPCMethod.__init__ tests hasattr(method, "external_name") before the
passed name. -/
theorem c1_counterexample :
    (RPCMethod.make cMeta (some "override") none none).name = "meta" ∧
    ("meta" : String) ≠ "override" := by
  exact ⟨rfl, by decide⟩

/-- Claim C1 (amended): the resolved name follows the priority: the
callable's attached metadata name first, then the explicit override, then
the callable's intrinsic identifier; in particular a callable carrying an
attached metadata name keeps it even when registered under a different
explicit override name. -/
theorem c1_amended_name_priority :
    (∀ (c : Callable) (nm : Option String) (sg : Option (List String))
        (ds : Option String) (e : String),
      c.external_name = some e → (RPCMethod.make c nm sg ds).name = e) ∧
    (∀ (c : Callable) (n : String) (sg : Option (List String)) (ds : Option String),
      c.external_name = none → (RPCMethod.make c (some n) sg ds).name = n) ∧
    (∀ (c : Callable) (sg : Option (List String)) (ds : Option String),
      c.external_name = none → (RPCMethod.make c none sg ds).name = c.func_name) := by
  refine ⟨?_, ?_, ?_⟩ <;>
    · intros
      simp [RPCMethod.make, resolve_name, *]

/-- Claim C1 amended, at concrete inputs: the attached name "meta" beats
the explicit override; an undecorated callable takes the explicit
override; with neither, the intrinsic name is used. -/
theorem c1_amended_name_priority_witness :
    (RPCMethod.make cMeta (some "override") none none).name = "meta" ∧
    (RPCMethod.make cPlain (some "override") none none).name = "override" ∧
    (RPCMethod.make cPlain none none none).name = "plainfn" :=
  ⟨c1_amended_name_priority.1 cMeta (some "override") none none "meta" rfl,
   c1_amended_name_priority.2.1 cPlain "override" none none rfl,
   c1_amended_name_priority.2.2 cPlain none none rfl⟩

/-- Claim C2: after construction the signature length equals the number of
resolved parameter names plus one, whichever resolution path was taken. -/
theorem c2_signature_length_invariant (c : Callable) (nm : Option String)
    (sg : Option (List String)) (ds : Option String) :
    (RPCMethod.make c nm sg ds).signature.length =
      (RPCMethod.make c nm sg ds).args.length + 1 := by
  show (resolve_signature c sg (resolve_args c)).length = (resolve_args c).length + 1
  have hd : ∀ args : List String, (default_signature args).length = args.length + 1 := by
    intro args
    simp [default_signature]
  unfold resolve_signature
  cases c.attached_signature with
  | none =>
    cases sg with
    | none => exact hd _
    | some s2 =>
      dsimp only
      by_cases h : (resolve_args c).length + 1 = s2.length
      · rw [if_pos h, ← h]
      · rw [if_neg h]
        exact hd _
  | some s =>
    dsimp only
    by_cases h : s.length = (resolve_args c).length + 1
    · rw [if_pos h]
      exact h
    · rw [if_neg h]
      cases sg with
      | none => exact hd _
      | some s2 =>
        dsimp only
        by_cases h2 : (resolve_args c).length + 1 = s2.length
        · rw [if_pos h2, ← h2]
        · rw [if_neg h2]
          exact hd _

/-- Claim C9: the resolved parameter-name list is the reflected formal
parameter list with every parameter literally named "self" removed,
whatever its position; it never contains "self" and is a sublist of the
reflected list, and the derived default signature has one tag per
surviving parameter plus one. -/
theorem c9_self_filtering (c : Callable) (nm : Option String)
    (sg : Option (List String)) (ds : Option String) :
    (RPCMethod.make c nm sg ds).args = c.argspec.filter (fun a => a ≠ "self") ∧
    "self" ∉ (RPCMethod.make c nm sg ds).args ∧
    (RPCMethod.make c nm sg ds).args.Sublist c.argspec ∧
    (default_signature (RPCMethod.make c nm sg ds).args).length =
      (c.argspec.filter (fun a => a ≠ "self")).length + 1 := by
  refine ⟨rfl, ?_, List.filter_sublist _,
    by simp [default_signature, RPCMethod.make, resolve_args]⟩
  intro h
  have := List.of_mem_filter h
  simp at this

/-- Indexing a list by a range of its positions rebuilds the zip with a
second list of equal length. -/
theorem range_map_getD_eq_zip (as t : List String) (h : t.length = as.length) :
    (List.range as.length).map (fun i => (as.getD i "", t.getD i "")) = as.zip t := by
  induction as generalizing t with
  | nil => simp
  | cons a as ih =>
    cases t with
    | nil => simp at h
    | cons b t =>
      simp only [List.length_cons, List.range_succ_eq_map, List.map_cons, List.map_map,
        List.getD_cons_zero, List.zip_cons_cons]
      congr 1
      have hf : ((fun i => ((a :: as).getD i "", (b :: t).getD i "")) ∘ Nat.succ)
          = (fun i => (as.getD i "", t.getD i "")) := by
        funext i
        simp [List.getD_cons_succ]
      rw [hf]
      exact ih t (by simpa using h)

/-- Indexing a list by a range of its positions, paired with a constant,
rebuilds the map with that constant. -/
theorem range_map_getD_const (as : List String) (c : String) :
    (List.range as.length).map (fun i => (as.getD i "", c)) =
      as.map (fun a => (a, c)) := by
  induction as with
  | nil => simp
  | cons a as ih =>
    simp only [List.length_cons, List.range_succ_eq_map, List.map_cons, List.map_map,
      List.getD_cons_zero]
    have hf : ((fun i => ((a :: as).getD i "", c)) ∘ Nat.succ)
        = (fun i => (as.getD i "", c)) := by
      funext i
      simp [List.getD_cons_succ]
    rw [hf, ih]

/-- An RPCMethod state violating the length invariant with an empty
signature and one argument.  Unreachable through __init__ (claim C2), but
get_params is specified to be defensive about it. -/
def brokenMethod : RPCMethod :=
  { method := cPlain, help := "", signature := [], name := "broken",
    permission := none, args := ["a"] }

/-- Claim C8, counterexample: on a descriptor with one parameter and an
empty signature, get_params returns the empty list, not the claimed
object-paired fallback [("a", "object")]. -/
theorem c8_counterexample :
    brokenMethod.signature = [] ∧
    brokenMethod.args = ["a"] ∧
    brokenMethod.get_params = [] ∧
    brokenMethod.get_params ≠ [("a", "object")] := by
  refine ⟨rfl, rfl, rfl, ?_⟩
  decide

/-- Claim C8 (amended): when the length invariant holds, get_params pairs
parameterNames[i] with signature[i+1]; when the signature is nonempty but
of the wrong length it falls back to pairing every parameter name with
"object"; when the signature is empty it returns the empty list. -/
theorem c8_amended_get_params (m : RPCMethod) :
    (m.signature.length = m.args.length + 1 →
      m.get_params = m.args.zip m.signature.tail) ∧
    (m.signature ≠ [] → m.signature.length ≠ m.args.length + 1 →
      m.get_params = m.args.map (fun a => (a, "object"))) ∧
    (m.signature = [] → m.get_params = []) := by
  refine ⟨?_, ?_, ?_⟩
  · intro h
    have hpos : m.signature.length > 0 := by omega
    unfold RPCMethod.get_params
    rw [if_pos hpos, if_pos h]
    obtain ⟨s0, t, hs⟩ : ∃ s0 t, m.signature = s0 :: t := by
      cases hsig : m.signature with
      | nil =>
        rw [hsig] at hpos
        simp at hpos
      | cons s0 t => exact ⟨s0, t, rfl⟩
    have ht : t.length = m.args.length := by
      rw [hs] at h
      simp only [List.length_cons] at h
      omega
    calc (List.range m.args.length).map
              (fun argnum => (m.args.getD argnum "", m.signature.getD (argnum + 1) ""))
          = (List.range m.args.length).map
              (fun argnum => (m.args.getD argnum "", t.getD argnum "")) := by
            apply List.map_congr_left
            intro i _
            rw [hs]
            simp [List.getD_cons_succ]
        _ = m.args.zip t := range_map_getD_eq_zip m.args t ht
        _ = m.args.zip m.signature.tail := by
            rw [hs]
            rfl
  · intro hne hlen
    have hpos : m.signature.length > 0 := List.length_pos.mpr hne
    unfold RPCMethod.get_params
    rw [if_pos hpos, if_neg hlen, range_map_getD_const]
  · intro h
    unfold RPCMethod.get_params
    rw [h]
    simp

/-- A well-formed RPCMethod state whose signature was supplied
explicitly. -/
def goodMethod : RPCMethod :=
  RPCMethod.make cPlain none (some ["int", "string", "array"]) none

/-- An RPCMethod state with a nonempty signature of the wrong length. -/
def mismatchMethod : RPCMethod :=
  { method := cPlain, help := "", signature := ["int"], name := "mm",
    permission := none, args := ["x", "y"] }

/-- Claim C8 amended, at concrete inputs: a two-parameter descriptor with
signature ["int", "string", "array"] pairs x with "string" and y with
"array"; a wrong-length nonempty signature falls back to "object" pairs;
an empty signature yields the empty list. -/
theorem c8_amended_get_params_witness :
    goodMethod.get_params = goodMethod.args.zip goodMethod.signature.tail ∧
    mismatchMethod.get_params = mismatchMethod.args.map (fun a => (a, "object")) ∧
    brokenMethod.get_params = [] :=
  ⟨(c8_amended_get_params goodMethod).1 (by decide),
   (c8_amended_get_params mismatchMethod).2.1 (by decide) (by decide),
   (c8_amended_get_params brokenMethod).2.2 rfl⟩

/-- Membership in system_listmethods is membership among the registered
names: sorting does not add or remove names. -/
theorem mem_system_listmethods (d : RPCDispatcher) (s : String) :
    s ∈ d.system_listmethods ↔ s ∈ d.rpcmethods.map RPCMethod.name := by
  unfold RPCDispatcher.system_listmethods
  exact List.mem_mergeSort

/-- The comparison used by system_listmethods sorts any list of strings
into lexicographically nondecreasing order. -/
theorem sortedLE_mergeSort (l : List String) :
    List.Sorted (fun a b : String => a ≤ b) (l.mergeSort (fun a b => a ≤ b)) := by
  have h : List.Pairwise (fun a b : String => (decide (a ≤ b)) = true)
      (l.mergeSort (fun a b => decide (a ≤ b))) := by
    apply List.sorted_mergeSort
    · intro a b c hab hbc
      simp only [decide_eq_true_eq] at hab hbc ⊢
      exact le_trans hab hbc
    · intro a b
      simp only [Bool.or_eq_true, decide_eq_true_eq]
      exact le_total a b
  exact h.imp (fun hab => of_decide_eq_true hab)

/-- Claim C3: a registration attempt whose resolved name is already
registered leaves the dispatcher (its url and its ordered descriptor list,
hence every reachable name and the descriptor reachable under each name)
exactly as it was, raising nothing. -/
theorem c3_duplicate_registration_noop (d : RPCDispatcher) (c : Callable)
    (nm : Option String) (sg : Option (List String)) (ds : Option String)
    (h : (RPCMethod.make c nm sg ds).name ∈ d.rpcmethods.map RPCMethod.name) :
    d.register_method c nm sg ds = d := by
  unfold RPCDispatcher.register_method
  rw [if_pos ((mem_system_listmethods d _).mpr h)]

/-- A dispatcher already holding the descriptor of cPlain, registered
under its intrinsic name "plainfn". -/
def dReg : RPCDispatcher :=
  { url := "/RPC2", rpcmethods := [RPCMethod.make cPlain none none none] }

/-- Claim C3 at a concrete input: registering cPlain2, whose resolved name
is also "plainfn", leaves dReg untouched. -/
theorem c3_duplicate_registration_noop_witness :
    dReg.register_method cPlain2 none none none = dReg :=
  c3_duplicate_registration_noop dReg cPlain2 none none none (by decide)

/-- Claim C4: system_listmethods is lexicographically sorted, lists
exactly the registered names, and two dispatchers whose registered names
are permutations of one another (registrations in a different order)
produce identical output. -/
theorem c4_listmethods_sorted (d d2 : RPCDispatcher)
    (h : (d.rpcmethods.map RPCMethod.name).Perm (d2.rpcmethods.map RPCMethod.name)) :
    List.Sorted (fun a b : String => a ≤ b) d.system_listmethods ∧
    d.system_listmethods.Perm (d.rpcmethods.map RPCMethod.name) ∧
    d.system_listmethods = d2.system_listmethods := by
  refine ⟨sortedLE_mergeSort _, List.mergeSort_perm _ _, ?_⟩
  apply List.eq_of_perm_of_sorted ?_ (sortedLE_mergeSort _) (sortedLE_mergeSort _)
  exact ((List.mergeSort_perm _ _).trans h).trans (List.mergeSort_perm _ _).symm

/-- A callable named "alpha" with no parameters or metadata. -/
def cAlpha : Callable :=
  { func_name := "alpha", argspec := [], docstring := "",
    external_name := none, attached_signature := none, permission := none }

/-- A callable named "beta" with no parameters or metadata. -/
def cBeta : Callable :=
  { func_name := "beta", argspec := [], docstring := "",
    external_name := none, attached_signature := none, permission := none }

/-- cAlpha then cBeta. -/
def dOrder1 : RPCDispatcher :=
  { url := "",
    rpcmethods := [RPCMethod.make cAlpha none none none,
                   RPCMethod.make cBeta none none none] }

/-- cBeta then cAlpha: the same registrations in the opposite order. -/
def dOrder2 : RPCDispatcher :=
  { url := "",
    rpcmethods := [RPCMethod.make cBeta none none none,
                   RPCMethod.make cAlpha none none none] }

/-- Claim C4 at concrete inputs: the two registration orders of alpha and
beta yield the same sorted name list. -/
theorem c4_listmethods_sorted_witness :
    List.Sorted (fun a b : String => a ≤ b) dOrder1.system_listmethods ∧
    dOrder1.system_listmethods.Perm (dOrder1.rpcmethods.map RPCMethod.name) ∧
    dOrder1.system_listmethods = dOrder2.system_listmethods :=
  c4_listmethods_sorted dOrder1 dOrder2 (by decide)

/-- The loops of system_methodhelp and system_methodsignature stop at the
first registered method carrying the requested name. -/
theorem loops_found (l : List RPCMethod) (nm : String)
    (h : ∃ m, m ∈ l ∧ m.name = nm) :
    ∃ m, m ∈ l ∧ m.name = nm ∧ helpLoop l nm = Except.ok m.help ∧
      signatureLoop l nm = Except.ok m.signature := by
  induction l with
  | nil =>
    obtain ⟨m, hm, _⟩ := h
    cases hm
  | cons a l ih =>
    by_cases ha : a.name = nm
    · exact ⟨a, List.mem_cons_self a l, ha,
        by simp [helpLoop, ha], by simp [signatureLoop, ha]⟩
    · obtain ⟨m, hm, hnm⟩ := h
      rcases List.mem_cons.mp hm with rfl | hm2
      · exact absurd hnm ha
      · obtain ⟨m2, hm2a, hm2b, hh, hsg⟩ := ih ⟨m, hm2, hnm⟩
        exact ⟨m2, List.mem_cons_of_mem a hm2a, hm2b,
          by simpa [helpLoop, ha] using hh, by simpa [signatureLoop, ha] using hsg⟩

/-- The loops of system_methodhelp and system_methodsignature raise
Fault(APPLICATION_ERROR, "No method found with name: " + name) when no
registered method carries the requested name. -/
theorem loops_notfound (l : List RPCMethod) (nm : String)
    (h : ∀ m, m ∈ l → m.name ≠ nm) :
    helpLoop l nm =
      Except.error ⟨APPLICATION_ERROR, "No method found with name: " ++ nm⟩ ∧
    signatureLoop l nm =
      Except.error ⟨APPLICATION_ERROR, "No method found with name: " ++ nm⟩ := by
  induction l with
  | nil => exact ⟨rfl, rfl⟩
  | cons a l ih =>
    have ha := h a (List.mem_cons_self a l)
    have step := ih (fun m hm => h m (List.mem_cons_of_mem a hm))
    exact ⟨by simpa [helpLoop, ha] using step.1,
      by simpa [signatureLoop, ha] using step.2⟩

/-- Claim C7: when a descriptor with the requested name is registered,
system.methodHelp returns its documentation string and
system.methodSignature its signature; when none is, each raises a Fault
carrying APPLICATION_ERROR and the "no method found" message — never a
success value and never some other error. -/
theorem c7_methodhelp_methodsignature (d : RPCDispatcher) (nm : String) :
    ((∃ m, m ∈ d.rpcmethods ∧ m.name = nm) →
      ∃ m, m ∈ d.rpcmethods ∧ m.name = nm ∧
        d.system_methodhelp nm = Except.ok m.help ∧
        d.system_methodsignature nm = Except.ok m.signature) ∧
    ((∀ m, m ∈ d.rpcmethods → m.name ≠ nm) →
      d.system_methodhelp nm =
        Except.error ⟨APPLICATION_ERROR, "No method found with name: " ++ nm⟩ ∧
      d.system_methodsignature nm =
        Except.error ⟨APPLICATION_ERROR, "No method found with name: " ++ nm⟩) :=
  ⟨fun h => loops_found d.rpcmethods nm h,
   fun h => loops_notfound d.rpcmethods nm h⟩

/-- Claim C7 at concrete inputs: on dReg, methodHelp and methodSignature
succeed for the registered name "plainfn" and fault with APPLICATION_ERROR
for the absent name "absent". -/
theorem c7_methodhelp_methodsignature_witness :
    (∃ m, m ∈ dReg.rpcmethods ∧ m.name = "plainfn" ∧
      dReg.system_methodhelp "plainfn" = Except.ok m.help ∧
      dReg.system_methodsignature "plainfn" = Except.ok m.signature) ∧
    (dReg.system_methodhelp "absent" =
      Except.error ⟨APPLICATION_ERROR, "No method found with name: " ++ "absent"⟩ ∧
    dReg.system_methodsignature "absent" =
      Except.error ⟨APPLICATION_ERROR, "No method found with name: " ++ "absent"⟩) :=
  ⟨(c7_methodhelp_methodsignature dReg "plainfn").1
      ⟨RPCMethod.make cPlain none none none, by decide, by decide⟩,
   (c7_methodhelp_methodsignature dReg "absent").2 (by decide)⟩

/-- The dispatcher state examined by the system.describe bug theorem:
configured with url "/RPC2" and holding one registered method. -/
def dDescribe : RPCDispatcher :=
  { url := "/RPC2", rpcmethods := [RPCMethod.make cAlpha none none none] }

/-- Claim C6: system.describe lists serviceType, serviceURL and methods
(one name/summary/params/return entry per descriptor in registration
order), but the trailing comma at rpcdispatcher.py line 231 stores
serviceURL as the one-element tuple (url,), not the configured URL string
itself. -/
theorem c6_serviceurl_tuple_bug :
    dDescribe.url = "/RPC2" ∧
    dDescribe.system_describe =
      [ ("serviceType", PyVal.str "RPC4Django JSONRPC+XMLRPC"),
        ("serviceURL", PyVal.tup [PyVal.str "/RPC2"]),
        ("methods", PyVal.list
          [ PyVal.dict
              [ ("name", PyVal.str "alpha"),
                ("summary", PyVal.str ""),
                ("params", PyVal.list []),
                ("return", PyVal.str "object") ] ]) ] ∧
    (∀ s, PyVal.tup [PyVal.str "/RPC2"] ≠ PyVal.str s) := by
  refine ⟨rfl, rfl, ?_⟩
  intro s h
  exact PyVal.noConfusion h

/-- Claim C5, counterexample: a raw body on which xmlrpclib.loads raises a
non-Fault exception (e.g. unparseable XML) makes get_method_name raise in
XML mode rather than return anything; and on malformed JSON the JSON mode
returns None, not the string "unknown". -/
theorem c5_counterexample :
    get_method_name_xml XmlParse.otherExn = Except.error PyExn.exn ∧
    get_method_name_json JsonParse.valueError = Except.ok none ∧
    get_method_name_json JsonParse.valueError ≠
      Except.ok (some (PyVal.str "unknown")) := by
  refine ⟨rfl, rfl, ?_⟩
  intro h
  exact Option.noConfusion (Except.ok.inj h)

/-- Claim C5 (amended): get_method_name extracts the target method name
without invoking any procedure; the malformed inputs the code anticipates
are tolerated by returning None (the not-found value), not "unknown": a
parser Fault in XML mode and a ValueError in JSON mode both yield None,
JSON mode never raises at all, but in XML mode any other parser exception
propagates to the caller. -/
theorem c5_amended_get_method_name :
    (∀ p m, get_method_name_xml (XmlParse.ok p m) = Except.ok (some m)) ∧
    (∀ f, get_method_name_xml (XmlParse.fault f) = Except.ok none) ∧
    (get_method_name_xml XmlParse.otherExn = Except.error PyExn.exn) ∧
    (get_method_name_json JsonParse.valueError = Except.ok none) ∧
    (∀ r, get_method_name_json r ≠ Except.error PyExn.exn) := by
  refine ⟨fun p m => rfl, fun f => rfl, rfl, rfl, ?_⟩
  intro r h
  cases r with
  | valueError => exact Except.noConfusion h
  | ok v =>
    cases v with
    | str s => exact Except.noConfusion h
    | int n => exact Except.noConfusion h
    | bool b => exact Except.noConfusion h
    | pynone => exact Except.noConfusion h
    | tup vs => exact Except.noConfusion h
    | list vs => exact Except.noConfusion h
    | dict kvs =>
      revert h
      unfold get_method_name_json
      dsimp only
      cases kvs.lookup "method" with
      | none => exact fun h => Except.noConfusion h
      | some mv => exact fun h => Except.noConfusion h

/-- Claim C10: in JSON mode, get_method_name returns the value under the
"method" key exactly when the parsed body is a JSON object carrying that
key; every other successfully parsed body — a batch array of request
objects included — yields None, without raising. -/
theorem c10_json_method_extraction :
    (∀ kvs mv, kvs.lookup "method" = some mv →
      get_method_name_json (JsonParse.ok (PyVal.dict kvs)) = Except.ok (some mv)) ∧
    (∀ kvs, kvs.lookup "method" = none →
      get_method_name_json (JsonParse.ok (PyVal.dict kvs)) = Except.ok none) ∧
    (∀ vs, get_method_name_json (JsonParse.ok (PyVal.list vs)) = Except.ok none) ∧
    (∀ v, (∀ kvs, v ≠ PyVal.dict kvs) →
      get_method_name_json (JsonParse.ok v) = Except.ok none) := by
  refine ⟨?_, ?_, fun vs => rfl, ?_⟩
  · intro kvs mv hk
    unfold get_method_name_json
    dsimp only
    rw [hk]
  · intro kvs hk
    unfold get_method_name_json
    dsimp only
    rw [hk]
  · intro v hv
    cases v with
    | dict kvs => exact absurd rfl (hv kvs)
    | str s => rfl
    | int n => rfl
    | bool b => rfl
    | pynone => rfl
    | tup vs => rfl
    | list vs => rfl

/-- A parsed JSON batch: an array of two request objects, the first with
an id and both with a "method" key. -/
def batchBody : PyVal :=
  PyVal.list
    [ PyVal.dict [("method", PyVal.str "a"), ("id", PyVal.int 1)],
      PyVal.dict [("method", PyVal.str "b")] ]

/-- Claim C10 at concrete inputs: a single request object yields its
"method" value, while a well-formed batch array yields None — the method
names inside the batch are never extracted. -/
theorem c10_json_method_extraction_witness :
    get_method_name_json
      (JsonParse.ok (PyVal.dict [("method", PyVal.str "a"), ("id", PyVal.int 1)])) =
      Except.ok (some (PyVal.str "a")) ∧
    get_method_name_json (JsonParse.ok batchBody) = Except.ok none :=
  ⟨c10_json_method_extraction.1 [("method", PyVal.str "a"), ("id", PyVal.int 1)]
      (PyVal.str "a") rfl,
   c10_json_method_extraction.2.2.1
      [ PyVal.dict [("method", PyVal.str "a"), ("id", PyVal.int 1)],
        PyVal.dict [("method", PyVal.str "b")] ]⟩
